import Mathlib

/-!
Formal model of the core of `bot.py` (FTC Discord bot): the TTL cache, the
resilient JSON fetcher `api_get`, the Quick-Stats HTML extraction engine
(`parse_table`, `parse_div_grid`, `parse_quick_stats_from_soup`) and the
field projection performed by the `team` command when building its embed.

Conventions of the shallow embedding:
* Python `None` is modelled by `Option.none`; a Python value of type
  `object` that may be `None` is an `Option V`.
* Clock instants are integers (seconds); `time.time()` is passed in
  explicitly as `now` and `time.sleep` advances it.
* The shared HTTP session is modelled as a function from the call-site
  attempt index to the outcome of that GET: either a raised
  `requests.RequestException` (carried as its message string) or a
  `Response`.
* The only uncaught exception reachable in `api_get` is the `ValueError`
  raised by `time.sleep` on a negative duration; it is modelled by the
  `Except` value in `ApiOutcome.result`.
-/

deriving instance DecidableEq for Except

namespace FtcBot

/-- Python's substring test `needle in hay` on strings. -/
def strIn (needle hay : String) : Bool :=
  (List.range (hay.data.length + 1)).any fun k =>
    needle.data.isPrefixOf (hay.data.drop k)

/-- Python `str.lower` (ASCII case folding, which covers every string the
bot manipulates). -/
def pyLower (s : String) : String := ⟨s.data.map Char.toLower⟩

/-- ASCII whitespace, as stripped by `str.strip` and `get_text(strip=True)`. -/
def isWS (c : Char) : Bool := c = ' ' || c = '\t' || c = '\n' || c = '\r'

/-- Python `str.strip()`. -/
def pyStrip (s : String) : String :=
  ⟨((s.data.dropWhile isWS).reverse.dropWhile isWS).reverse⟩

/-- Python `sep.join(parts)`. -/
def pyJoin (sep : String) : List String → String
  | [] => ""
  | x :: xs => xs.foldl (fun a b => a ++ sep ++ b) x

/-- Insertion into a Python `dict` modelled as an ordered association list:
an existing key keeps its position and gets the new value, a new key is
appended. -/
def dictInsert (k : String) (v : β) : List (String × β) → List (String × β)
  | [] => [(k, v)]
  | (k', v') :: rest => if k' = k then (k, v) :: rest else (k', v') :: dictInsert k v rest

/-- Python `dict` lookup (`d.get(k)`). -/
def dictLookup (k : String) : List (String × β) → Option β
  | [] => none
  | (k', v') :: rest => if k' = k then some v' else dictLookup k rest

/-- The value attached to the LAST pair of `ps` carrying key `k`, if any:
the reference semantics of repeated `d[k] = v` assignments. -/
def lastLookup (k : String) (ps : List (String × β)) : Option β :=
  (ps.reverse.find? fun p => p.1 == k).map Prod.snd

/-- Build a Python dict from a stream of `d[k] = v` assignments. -/
def dictOf (ps : List (String × β)) : List (String × β) :=
  ps.foldl (fun acc p => dictInsert p.1 p.2 acc) []

/-! ## TTL cache (`CACHE`, `cache_get`, `cache_set`, bot.py lines 54-68) -/

/-- The global `CACHE` dict: request key to `(expiry_epoch, value)`.  The
stored value has Python type `object`, so `None` (JSON null) is storable:
hence `Option V`. -/
def Cache (V : Type) := String → Option (Int × Option V)

/-- Model of `cache_get(key)`.  Takes the current clock reading; returns the Python
result (`None` for a missing or expired entry, the stored value otherwise)
together with the cache after the lazy expiry-removal side effect
(`CACHE.pop(key, None)`). -/
def cache_get (now : Int) (key : String) (c : Cache V) : Option V × Cache V :=
  match c key with
  | none => (none, c)
  | some (expiry, value) =>
    if now > expiry then (none, fun k => if k = key then none else c k)
    else (value, c)

/-- Model of `cache_set(key, value, ttl)`: stores `(time.time() + ttl, value)`. -/
def cache_set (now : Int) (key : String) (value : Option V) (ttl : Nat) (c : Cache V) :
    Cache V :=
  fun k => if k = key then some (now + (ttl : Int), value) else c k

/-! ## The resilient fetcher `api_get` (bot.py lines 71-107) -/

/-- The `Retry-After` header of a 429 response, abstracted by the outcome
of `int(float(ra)) if ra else 5` (bot.py line 89):
* `missing` — no header (`ra is None`);
* `malformed` — the header is present but `int(float(ra))` raises (this
  includes the empty string, non-numeric text, and values such as `inf`
  or `nan` whose `int()` conversion raises), caught by the
  `except Exception` at line 90;
* `value q` — the header parses to the finite float `q` and `int(q)`
  succeeds. -/
inductive RAHeader where
  | missing
  | malformed
  | value (q : ℚ)
  deriving DecidableEq

/-- Python `int()` applied to a float: truncation toward zero. -/
def ratTrunc (q : ℚ) : ℤ := q.num.tdiv q.den

/-- Model of `wait = int(float(ra)) if ra else 5`, with `wait = 5` when that
expression raises (bot.py lines 87-91). -/
def parseWait : RAHeader → ℤ
  | .missing => 5
  | .malformed => 5
  | .value q => ratTrunc q

/-- One HTTP response as consumed by `api_get`: its status code, its
`Retry-After` header, and the outcome of `resp.json()` (an exception
message, or the decoded document — `Option V` because a body of `null`
decodes to Python `None`). -/
structure Response (V : Type) where
  status : Nat
  retryAfter : RAHeader
  body : Except String (Option V)
  deriving DecidableEq

/-- The outcome of one call-site `SESSION.get`: a raised
`requests.RequestException` (its message) or a response. -/
def GetOutcome (V : Type) := Except String (Response V)

/-- The classified error strings `api_get` can return, one constructor per
format string in bot.py. -/
inductive ApiError where
  | requestFailed (msg : String)
  | requestFailedAfterRetry (msg : String)
  | httpError (status : Nat)
  | invalidJson (msg : String)
  deriving DecidableEq

/-- The uncaught exceptions of the model: `time.sleep(wait)` raises
`ValueError` when `wait` is negative (bot.py line 92 is outside every
`try`). -/
inductive PyExn where
  | sleepNegative (wait : ℤ)
  deriving DecidableEq

/-- Everything observable about one `api_get` call: the returned
`(data, error)` pair (or the uncaught exception), the cache afterwards,
how many call-site GETs were issued, how long the call slept, and the
clock when it finished. -/
structure ApiOutcome (V : Type) where
  result : Except PyExn (Option V × Option ApiError)
  cache : Cache V
  attempts : Nat
  slept : ℤ
  now : Int

/-- The request key `f"api:{url}:{params}"` (bot.py line 76); `params` is
carried as the string Python interpolates for it. -/
def apiKey (url params : String) : String := "api:" ++ url ++ ":" ++ params

def API_BASE : String := "https://api.ftcscout.org/rest/v1"

/-- Shared tail of `api_get` after the 429 handling (bot.py lines 98-107):
non-200 status, JSON decoding, caching of the decoded value. -/
def apiFinish (r : Response V) (c : Cache V) (att : Nat) (w : ℤ) (now : Int)
    (key : String) (ttl : Nat) : ApiOutcome V :=
  if r.status ≠ 200 then ⟨.ok (none, some (.httpError r.status)), c, att, w, now⟩
  else
    match r.body with
    | .error e => ⟨.ok (none, some (.invalidJson e)), c, att, w, now⟩
    | .ok data => ⟨.ok (data, none), cache_set now key data ttl c, att, w, now⟩

/-- Model of `api_get(path, params=None, ttl=60)` (bot.py lines 71-107).
`transport i` is the outcome of the `i`-th call-site `SESSION.get`.  The
steps mirror the source line by line: cache probe (line 77), first GET
(line 82), explicit one-shot 429 retry after `time.sleep(wait)`
(lines 86-96), then status / JSON handling and caching (lines 98-107). -/
def api_get (transport : Nat → GetOutcome V) (path params : String) (ttl : Nat)
    (cache : Cache V) (now : Int) : ApiOutcome V :=
  let url := API_BASE ++ path
  let key := apiKey url params
  let probe := cache_get now key cache
  match probe.1 with
  | some v => ⟨.ok (some v, none), probe.2, 0, 0, now⟩
  | none =>
    match transport 0 with
    | .error e => ⟨.ok (none, some (.requestFailed e)), probe.2, 1, 0, now⟩
    | .ok r =>
      if r.status = 429 then
        let wait := parseWait r.retryAfter
        if wait < 0 then ⟨.error (.sleepNegative wait), probe.2, 1, 0, now⟩
        else
          match transport 1 with
          | .error e =>
            ⟨.ok (none, some (.requestFailedAfterRetry e)), probe.2, 2, wait, now + wait⟩
          | .ok r2 => apiFinish r2 probe.2 2 wait (now + wait) key ttl
      else apiFinish r probe.2 1 0 now key ttl

/-! ## HTML document model -/

/-- A parsed HTML node: a text fragment (`NavigableString`) or a tag with
its name, its `class` attribute (absent attribute = `[]`) and its children
in document order. -/
inductive Node where
  | text (s : String)
  | tag (name : String) (classes : List String) (children : List Node)

mutual
/-- Structural equality of nodes, matching BeautifulSoup's `Tag.__eq__`
(two tags are equal when they render the same markup), which is what
Python's `in` uses in the Stage C candidate de-duplication. -/
def Node.decEq : (a b : Node) → Decidable (a = b)
  | .text s, .text t =>
    if h : s = t then isTrue (by rw [h]) else isFalse (by intro hh; cases hh; exact h rfl)
  | .text _, .tag _ _ _ => isFalse (by intro h; cases h)
  | .tag _ _ _, .text _ => isFalse (by intro h; cases h)
  | .tag n1 c1 k1, .tag n2 c2 k2 =>
    if h1 : n1 = n2 then
      if h2 : c1 = c2 then
        match Node.decEqList k1 k2 with
        | isTrue h3 => isTrue (by rw [h1, h2, h3])
        | isFalse h3 => isFalse (by intro hh; cases hh; exact h3 rfl)
      else isFalse (by intro hh; cases hh; exact h2 rfl)
    else isFalse (by intro hh; cases hh; exact h1 rfl)
/-- Structural equality of node lists. -/
def Node.decEqList : (a b : List Node) → Decidable (a = b)
  | [], [] => isTrue rfl
  | [], _ :: _ => isFalse (by intro h; cases h)
  | _ :: _, [] => isFalse (by intro h; cases h)
  | a :: l1, b :: l2 =>
    match Node.decEq a b, Node.decEqList l1 l2 with
    | isTrue h1, isTrue h2 => isTrue (by rw [h1, h2])
    | isFalse h1, _ => isFalse (by intro hh; cases hh; exact h1 rfl)
    | _, isFalse h2 => isFalse (by intro hh; cases hh; exact h2 rfl)
end

instance : DecidableEq Node := Node.decEq

/-- Tag name; text fragments have none (they never match a name filter). -/
def nodeName : Node → String
  | .text _ => ""
  | .tag n _ _ => n

/-- The `class` attribute token list (`tag.get("class") or []`). -/
def nodeClasses : Node → List String
  | .text _ => []
  | .tag _ cls _ => cls

mutual
/-- The text fragments of a node's subtree in document order. -/
def textFragments : Node → List String
  | .text s => [s]
  | .tag _ _ cs => textFragmentsList cs
/-- Text fragments of a forest, in document order. -/
def textFragmentsList : List Node → List String
  | [] => []
  | n :: ns => textFragments n ++ textFragmentsList ns
end

/-- Model of `get_text(sep, strip=True)`: each text fragment is stripped, empty
fragments are dropped, and the rest are joined with `sep`.
`get_text(strip=True)` is `getText ""`. -/
def getText (sep : String) (n : Node) : String :=
  pyJoin sep (((textFragments n).map pyStrip).filter fun s => s ≠ "")

mutual
/-- Preorder (= document order) listing of the tags of a forest, each with
its subtree. -/
def preTagsList : List Node → List Node
  | [] => []
  | n :: ns => preTags n ++ preTagsList ns
/-- Preorder listing of the tags of a subtree, root included. -/
def preTags : Node → List Node
  | .text _ => []
  | .tag nm cls cs => .tag nm cls cs :: preTagsList cs
end

/-- All tags strictly below `n` in document order: the search space of
`find` / `find_all` / `find_next`. -/
def descendants : Node → List Node
  | .text _ => []
  | .tag _ _ cs => preTagsList cs

/-- Model of `t.find_all(name)`. -/
def findAllNamed (t : Node) (name : String) : List Node :=
  (descendants t).filter fun n => nodeName n = name

/-- Model of `tr.find_all(["td", "th"])`. -/
def findCells (tr : Node) : List Node :=
  (descendants tr).filter fun n => nodeName n = "td" || nodeName n = "th"

/-- Model of `any(tok == cls or tok in cls for cls in classes)`: the class-token
heuristic used for "table", "header", "row-label" and "val". -/
def hasClassTok (tok : String) (n : Node) : Bool :=
  (nodeClasses n).any fun cls => cls == tok || strIn tok cls

/-! ## Table Parser (`parse_table`, bot.py lines 157-184) -/

/-- A normalized Quick-Stats table: `{"categories": ..., "rows": ...}`. -/
structure QuickStats where
  categories : List String
  rows : List (String × List String)
  deriving DecidableEq

/-- The `(label, vals)` pairs produced by the row loop of `parse_table`
(lines 172-182), in document order: one pair per `<tr>` with at least two
cells, label = first cell text, vals = remaining cell texts. -/
def tableRowPairs (t : Node) : List (String × List String) :=
  (findAllNamed t "tr").filterMap fun tr =>
    match (findCells tr).map (getText " ") with
    | [] => none
    | [_] => none
    | label :: vals => some (label, vals)

/-- The header-derived `categories` of `parse_table` (lines 158-170). -/
def tableCategories (t : Node) : List String :=
  match (findAllNamed t "th").map (getText "") with
  | [] =>
    match (findAllNamed t "tr").head? with
    | some firstTr =>
      let cells := findCells firstTr
      if cells.length > 1 then (cells.drop 1).map (getText "") else []
    | none => []
  | h0 :: rest =>
    if rest ≠ [] ∧
        (pyStrip h0 = "" ∨
          ["best", "rank", "label"].any fun x => strIn x (pyLower h0)) then
      rest
    else h0 :: rest

/-- Model of `parse_table(t)`.  Note: the source returns the
`{"categories": ..., "rows": ...}` dict unconditionally — there is no
empty-rows check and `None` is never returned. -/
def parse_table (t : Node) : QuickStats :=
  ⟨tableCategories t, dictOf (tableRowPairs t)⟩

/-! ## Grid Parser (`parse_div_grid`, bot.py lines 187-267) -/

/-- Candidate children of the grid container (lines 189-192): direct
`div` children, else every descendant `div`. -/
def gridChildren (container : Node) : List Node :=
  let direct :=
    (match container with
      | .text _ => []
      | .tag _ _ cs => cs).filter fun c => nodeName c = "div"
  if direct = [] then findAllNamed container "div" else direct

/-- Header texts (lines 195-210): the children carrying a "header" class
token; if none, the low-confidence guess of the first ten children's
texts. -/
def gridHeaders (children : List Node) : List String :=
  let hs := (children.filter (hasClassTok "header")).map (getText " ")
  if hs = [] then (children.take 10).map (getText " ") else hs

/-- The row scan of `parse_div_grid` (lines 217-239) as a left-to-right
state machine carrying the row being collected.  A "row-label" child
closes the previous row and opens a new one; a "val" child appends its
text to the open row; any other child is skipped; the end of the list
closes the open row.  This is exactly the source's `while` loop, which
jumps from each row label over its value run to the next row label. -/
def gridScanAux (cur : Option (String × List String)) :
    List Node → List (String × List String)
  | [] => (match cur with | none => [] | some p => [p])
  | c :: rest =>
    if hasClassTok "row-label" c then
      match cur with
      | none => gridScanAux (some (getText " " c, [])) rest
      | some p => p :: gridScanAux (some (getText " " c, [])) rest
    else
      match cur with
      | none => gridScanAux none rest
      | some (l, vs) =>
        if hasClassTok "val" c then gridScanAux (some (l, vs ++ [getText " " c])) rest
        else gridScanAux (some (l, vs)) rest

/-- The `(label, vals)` assignments produced by the row scan. -/
def gridScan (children : List Node) : List (String × List String) :=
  gridScanAux none children

/-- Chunking loop of the no-tagged-rows fallback (lines 250-256), fuelled
by the list length to stay structural: `label = tail[idx]`,
`vals = tail[idx+1 : idx+1+colCount]`, stride `colCount + 1`. -/
def chunkGo (colCount : Nat) : Nat → List String → List (String × List String)
  | _, [] => []
  | 0, _ :: _ => []
  | fuel + 1, x :: xs => (x, xs.take colCount) :: chunkGo colCount fuel (xs.drop colCount)

/-- The fallback row assignments of lines 241-258: texts of the non-empty
children after the first `len(headers)` entries, chunked into
`label :: vals` groups of `max 1 (categories.length) + 1`. -/
def gridChunkPairs (children : List Node) (headers categories : List String) :
    List (String × List String) :=
  let colCount := max 1 categories.length
  let textChildren :=
    (children.filter fun c => getText "" c ≠ "").map (getText " ")
  if textChildren = [] then []
  else
    let tail := textChildren.drop headers.length
    chunkGo colCount tail.length tail

/-- The row assignments `parse_div_grid` actually folds into `rows_local`:
the scan's, or — when the scan found nothing and headers exist — the
chunk fallback's. -/
def gridEffectivePairs (children : List Node) (headers categories : List String) :
    List (String × List String) :=
  if gridScan children = [] ∧ headers ≠ [] then gridChunkPairs children headers categories
  else gridScan children

/-- Synthesised `["Col 1", ...]` categories (lines 260-262), sized to the
longest row. -/
def genericCols (rows : List (String × List String)) : List String :=
  let maxlen := (rows.map fun p => p.2.length).foldr max 0
  (List.range maxlen).map fun i => "Col " ++ toString (i + 1)

/-- Model of `categories = headers[1:] if len(headers) > 1 else headers`
(line 213), before the `Col i` synthesis. -/
def gridCategoriesPre (container : Node) : List String :=
  let hs := gridHeaders (gridChildren container)
  if hs.length > 1 then hs.drop 1 else hs

/-- The full stream of `rows_local[label] = vals` assignments performed by
`parse_div_grid` on `container`. -/
def gridPairs (container : Node) : List (String × List String) :=
  gridEffectivePairs (gridChildren container) (gridHeaders (gridChildren container))
    (gridCategoriesPre container)

/-- Model of `parse_div_grid(container)` (lines 187-267).  Unlike `parse_table`,
this parser does return `None` when `rows` ends up empty. -/
def parse_div_grid (container : Node) : Option QuickStats :=
  let rows := dictOf (gridPairs container)
  let categories :=
    if gridCategoriesPre container = [] ∧ rows ≠ [] then genericCols rows
    else gridCategoriesPre container
  if rows = [] then none else some ⟨categories, rows⟩

/-! ## Extraction Orchestrator (`parse_quick_stats_from_soup`,
bot.py lines 269-333) -/

/-- The heading filter of line 270: a heading-like or generic block tag
with non-empty stripped text containing "quick stats" case-insensitively. -/
def isQuickStatsHeading (n : Node) : Bool :=
  (["h1", "h2", "h3", "h4", "h5", "div", "span"].any fun nm => nodeName n = nm) &&
    getText "" n ≠ "" && strIn "quick stats" (pyLower (getText "" n))

/-- The Stage A grid anchor filter of line 273: a `div` whose (non-empty)
class list has a token containing "table". -/
def isTableClassDiv (n : Node) : Bool :=
  nodeName n = "div" && nodeClasses n ≠ [] &&
    (nodeClasses n).any fun cls => strIn "table" cls || cls == "table"

/-- The Stage B filter of lines 294-295 (no truthiness guard on the class
list, unlike Stage A — equivalent, since `any` over `[]` is false). -/
def isTableClassDivB (n : Node) : Bool :=
  nodeName n = "div" &&
    (nodeClasses n).any fun cls => strIn "table" cls || cls == "table"

/-- Model of `" ".join(k.lower() for k in rows.keys())` followed by the
keyword test of lines 277-278 / 287-288 / 302-303 / 325-326. -/
def rowsHaveKeyword (rows : List (String × List String)) : Bool :=
  let joined := pyJoin " " (rows.map fun p => pyLower p.1)
  ["best", "opr", "rank", "percentile"].any fun k => strIn k joined

/-- The Stage C header pre-filter of lines 312-314: the joined lowered
`<th>` texts contain one of the listed phrases (the source lists
"total np" twice; kept as written). -/
def tableHeaderKeyword (t : Node) : Bool :=
  let joined := pyLower (pyJoin " " ((findAllNamed t "th").map (getText "")))
  ["total np", "best opr", "rank / percentile", "total np"].any fun k => strIn k joined

/-- Model of `if t not in table_candidates: table_candidates.append(t)` — append
preserving first occurrence, deduplicating by structural equality. -/
def appendUnique (acc : List Node) (t : Node) : List Node :=
  if t ∈ acc then acc else acc ++ [t]

/-- Stage A's anchored grid attempt (lines 273-281 up to the parse):
the first "table"-class `div` after the heading, fed to the Grid Parser.
Both keyword branches of the source return the parse unchanged, so a
`some` result here is returned unconditionally. -/
def stageAgrid (afterHeading : List Node) : Option QuickStats :=
  match afterHeading.find? isTableClassDiv with
  | some divGrid => parse_div_grid divGrid
  | none => none

/-- Stage B (lines 291-306): parse every "table"-class `div` in the
document, prefer the first candidate with keyword rows, else the first
candidate. -/
def stageB (allTags : List Node) : Option QuickStats :=
  let divCandidates :=
    (allTags.filter isTableClassDivB).filterMap parse_div_grid
  match divCandidates.find? (fun p => rowsHaveKeyword p.rows) with
  | some p => some p
  | none => divCandidates.head?

/-- Stage C (lines 308-333): order the classic tables (header-keyword
tables first, then the rest, deduplicated), return the first parse with
keyword rows, else the parse of the very first candidate. -/
def stageC (allTags : List Node) : Option QuickStats :=
  let allTables := allTags.filter fun n => nodeName n = "table"
  let cands := (allTables.filter tableHeaderKeyword).foldl appendUnique []
  let cands := allTables.foldl appendUnique cands
  match cands.find? (fun t => rowsHaveKeyword (parse_table t).rows) with
  | some t => some (parse_table t)
  | none =>
    match cands with
    | [] => none
    | t :: _ => some (parse_table t)

/-- Stages B then C (everything after the `if heading:` block). -/
def stageBC (soup : Node) : Option QuickStats :=
  match stageB (descendants soup) with
  | some r => some r
  | none => stageC (descendants soup)

/-- Model of `parse_quick_stats_from_soup(soup)` (lines 269-333).  Stage A anchors
on the first "quick stats" heading; its grid result is returned
unconditionally, its classic-table fallback only on a row-label keyword
match; otherwise control falls through to Stages B and C. -/
def parse_quick_stats_from_soup (soup : Node) : Option QuickStats :=
  let allTags := descendants soup
  let stageA : Option QuickStats :=
    match allTags.findIdx? isQuickStatsHeading with
    | none => none
    | some i =>
      let afterHeading := allTags.drop (i + 1)
      match stageAgrid afterHeading with
      | some parsed => some parsed
      | none =>
        match afterHeading.find? (fun n => nodeName n = "table") with
        | some t =>
          let parsed := parse_table t
          if rowsHaveKeyword parsed.rows then some parsed else none
        | none => none
  match stageA with
  | some r => some r
  | none => stageBC soup

/-! ## Field Projector (the embed-building part of the `team` command,
bot.py lines 442-484) -/

/-- One `embed.add_field(name=..., value=..., inline=...)` call. -/
structure Field where
  name : String
  value : String
  inline : Bool
  deriving DecidableEq

/-- Model of `find_row(keys)` (lines 442-447): the first row label whose lowering
contains one of `keys`. -/
def find_row (rows : List (String × List String)) (keys : List String) : Option String :=
  (rows.map Prod.fst).find? fun k => keys.any fun x => strIn x (pyLower k)

/-- Python truthiness of the `best_label` / `rank_label` variables
(`str | None`). -/
def labelTruthy : Option String → Bool
  | none => false
  | some s => s ≠ ""

/-- Model of `vals[i] if i < len(vals) else ""` where `vals = rows.get(label, [])`
(lines 458-465, with `best_val` / `rank_val` initialised to `""`). -/
def valAt (rows : List (String × List String)) (label : Option String) (i : Nat) : String :=
  match label with
  | none => ""
  | some l => (((dictLookup l rows).getD []).getD i "")

/-- The `field_lines` list of lines 467-471 for category position `i`. -/
def fieldLines (rows : List (String × List String))
    (bestLabel rankLabel : Option String) (i : Nat) : List String :=
  (if labelTruthy bestLabel ∧ valAt rows bestLabel i ≠ "" then
      ["Best OPR: " ++ valAt rows bestLabel i]
    else []) ++
  (if labelTruthy rankLabel ∧ valAt rows rankLabel i ≠ "" then
      ["Rank / Percentile: " ++ valAt rows rankLabel i]
    else [])

/-- The per-category loop of lines 454-475, as the source's fold:
a field is appended exactly when its `field_lines` is non-empty. -/
def perCategoryFields (categories : List String) (rows : List (String × List String)) :
    List Field :=
  let bestLabel := find_row rows ["best", "opr"]
  let rankLabel := find_row rows ["rank", "percentile"]
  (categories.enum).foldl
    (fun acc ci =>
      let fl := fieldLines rows bestLabel rankLabel ci.1
      if fl ≠ [] then acc ++ [⟨ci.2, pyJoin "\n" fl, true⟩] else acc)
    []

/-- The fallback of lines 477-484: one non-inline field per row label,
values mapped positionally against `categories`. -/
def fallbackFields (categories : List String) (rows : List (String × List String)) :
    List Field :=
  rows.map fun lv =>
    ⟨lv.1,
      pyJoin " | " ((categories.enum).map fun ci => ci.2 ++ ": " ++ lv.2.getD ci.1 ""),
      false⟩

/-- The whole embed-field construction of lines 452-484: the per-category
fields when the loop added any (`added_any`), else the per-row fallback.
The `if categories:` guard of line 454 makes the per-category list empty
when `categories` is empty. -/
def projectFields (categories : List String) (rows : List (String × List String)) :
    List Field :=
  let per := if categories ≠ [] then perCategoryFields categories rows else []
  if per ≠ [] then per else fallbackFields categories rows

/-! ## Dictionary lemmas -/

theorem dictLookup_dictInsert (k k' : String) (v : β) (l : List (String × β)) :
    dictLookup k (dictInsert k' v l) = if k' = k then some v else dictLookup k l := by
  induction l with
  | nil => simp [dictInsert, dictLookup]
  | cons p rest ih =>
    obtain ⟨pk, pv⟩ := p
    by_cases h1 : pk = k'
    · subst h1
      by_cases h2 : pk = k
      · subst h2
        simp [dictInsert, dictLookup]
      · simp [dictInsert, dictLookup, h2]
    · by_cases h2 : pk = k
      · subst h2
        have h3 : k' ≠ pk := fun hh => h1 hh.symm
        simp [dictInsert, dictLookup, h1, h3]
      · simp [dictInsert, dictLookup, h1, h2, ih]

theorem mem_keys_dictInsert (k k' : String) (v : β) (l : List (String × β)) :
    k ∈ (dictInsert k' v l).map Prod.fst ↔ k = k' ∨ k ∈ l.map Prod.fst := by
  induction l with
  | nil => simp [dictInsert]
  | cons p rest ih =>
    obtain ⟨pk, pv⟩ := p
    by_cases h : pk = k'
    · subst h
      simp [dictInsert, or_self_left]
    · simp only [dictInsert, if_neg h, List.map_cons, List.mem_cons, ih]
      tauto

theorem keys_nodup_dictInsert (k : String) (v : β) (l : List (String × β))
    (h : (l.map Prod.fst).Nodup) : ((dictInsert k v l).map Prod.fst).Nodup := by
  induction l with
  | nil => simp [dictInsert]
  | cons p rest ih =>
    obtain ⟨pk, pv⟩ := p
    simp only [List.map_cons, List.nodup_cons] at h
    by_cases hk : pk = k
    · subst hk
      have hd : dictInsert pk v ((pk, pv) :: rest) = (pk, v) :: rest := by
        simp [dictInsert]
      rw [hd, List.map_cons, List.nodup_cons]
      exact h
    · simp only [dictInsert, if_neg hk, List.map_cons, List.nodup_cons]
      refine ⟨?_, ih h.2⟩
      rw [mem_keys_dictInsert]
      rintro (hh | hh)
      · exact hk hh
      · exact h.1 hh

theorem dictInsert_ne_nil (k : String) (v : β) (l : List (String × β)) :
    dictInsert k v l ≠ [] := by
  cases l with
  | nil => simp [dictInsert]
  | cons p rest =>
    obtain ⟨pk, pv⟩ := p
    by_cases h : pk = k <;> simp [dictInsert, h]

/-- Lemma: `lastLookup` unfolded one assignment at a time: the later assignments
of the tail win over the head. -/
theorem lastLookup_cons (k : String) (p : String × β) (ps : List (String × β)) :
    lastLookup k (p :: ps) =
      match lastLookup k ps with
      | some v => some v
      | none => if p.1 = k then some p.2 else none := by
  simp only [lastLookup, List.reverse_cons, List.find?_append]
  cases hf : (ps.reverse.find? fun q => q.1 == k) with
  | none =>
    by_cases h : p.1 = k
    · simp [List.find?, Option.or, h]
    · have hb : (p.1 == k) = false := beq_eq_false_iff_ne.mpr h
      simp [List.find?, Option.or, hb, h]
  | some q => simp [Option.or]

theorem dictLookup_foldl (k : String) (ps : List (String × β))
    (acc : List (String × β)) :
    dictLookup k (ps.foldl (fun a p => dictInsert p.1 p.2 a) acc) =
      match lastLookup k ps with
      | some v => some v
      | none => dictLookup k acc := by
  induction ps generalizing acc with
  | nil => simp [lastLookup]
  | cons p rest ih =>
    simp only [List.foldl_cons, ih, lastLookup_cons]
    cases hrest : lastLookup k rest with
    | some v => simp
    | none =>
      simp only [dictLookup_dictInsert]
      by_cases h : p.1 = k <;> simp [h]

/-- Looking a key up in a Python dict built from a stream of assignments
returns the value of the LAST assignment to that key. -/
theorem dictLookup_dictOf (k : String) (ps : List (String × β)) :
    dictLookup k (dictOf ps) = lastLookup k ps := by
  rw [dictOf, dictLookup_foldl]
  cases lastLookup k ps <;> simp [dictLookup]

theorem keys_nodup_foldl (ps : List (String × β)) (acc : List (String × β))
    (h : (acc.map Prod.fst).Nodup) :
    ((ps.foldl (fun a p => dictInsert p.1 p.2 a) acc).map Prod.fst).Nodup := by
  induction ps generalizing acc with
  | nil => exact h
  | cons p rest ih => exact ih _ (keys_nodup_dictInsert _ _ _ h)

/-- The keys of a Python dict are pairwise distinct. -/
theorem keys_nodup_dictOf (ps : List (String × β)) :
    ((dictOf ps).map Prod.fst).Nodup :=
  keys_nodup_foldl ps [] (by simp)

theorem foldl_dictInsert_ne_nil (ps : List (String × β)) (acc : List (String × β))
    (h : acc ≠ [] ∨ ps ≠ []) :
    ps.foldl (fun a p => dictInsert p.1 p.2 a) acc ≠ [] := by
  induction ps generalizing acc with
  | nil => simpa using h
  | cons p rest ih =>
    simp only [List.foldl_cons]
    exact ih _ (Or.inl (dictInsert_ne_nil _ _ _))

/-- A dict is empty exactly when no assignment was made. -/
theorem dictOf_eq_nil_iff (ps : List (String × β)) : dictOf ps = [] ↔ ps = [] := by
  constructor
  · intro h
    by_contra hne
    exact foldl_dictInsert_ne_nil ps [] (Or.inr hne) h
  · rintro rfl
    rfl

/-! ## Concrete fixtures used by witnesses and counterexamples -/

/-- A classic Quick-Stats table with a blank first header. -/
def qsTable : Node :=
  .tag "table" [] [
    .tag "tr" [] [.tag "th" [] [.text ""], .tag "th" [] [.text "Auto"],
      .tag "th" [] [.text "Teleop"]],
    .tag "tr" [] [.tag "td" [] [.text "Best OPR"], .tag "td" [] [.text "10"],
      .tag "td" [] [.text "20"]],
    .tag "tr" [] [.tag "td" [] [.text "Rank"], .tag "td" [] [.text "1st"],
      .tag "td" [] [.text "2nd"]]]

/-- A div-based Quick-Stats grid. -/
def qsGrid : Node :=
  .tag "div" ["stats-table"] [
    .tag "div" ["header"] [.text ""],
    .tag "div" ["header"] [.text "Auto"],
    .tag "div" ["header"] [.text "Teleop"],
    .tag "div" ["row-label"] [.text "Best OPR"],
    .tag "div" ["val"] [.text "5"],
    .tag "div" ["val"] [.text "7"],
    .tag "div" ["row-label"] [.text "Rank"],
    .tag "div" ["val"] [.text "top 10%"],
    .tag "div" ["val"] [.text "top 5%"]]

/-- A document with a "Quick Stats" heading followed by the grid, and also
a keyword-bearing classic table further down. -/
def qsDoc : Node :=
  .tag "html" [] [
    .tag "h2" [] [.text "Quick Stats"],
    qsGrid,
    qsTable]

/-- A table whose single row has a single cell: its parsed `rows` dict is
empty. -/
def emptyRowsTable : Node :=
  .tag "table" [] [.tag "tr" [] [.tag "td" [] [.text "only one cell"]]]

/-- A heading-free document whose only table parses to empty rows. -/
def emptyRowsDoc : Node := .tag "html" [] [emptyRowsTable]

/-- A grid container whose single child is a row label with no following
"val" children. -/
def lonelyRowGrid : Node :=
  .tag "div" ["table"] [.tag "div" ["row-label"] [.text "Best OPR"]]

/-- The empty cache over `Nat`-valued JSON documents. -/
def cacheEmpty : Cache Nat := fun _ => none

/-- A transport answering every GET with the same response. -/
def constT (r : Response Nat) : Nat → GetOutcome Nat := fun _ => .ok r

/-- A transport answering 429 with the given `Retry-After` header first,
then 200 with body `3`. -/
def retryT (ra : RAHeader) : Nat → GetOutcome Nat :=
  fun i => if i = 0 then .ok ⟨429, ra, .error "rate limited"⟩
    else .ok ⟨200, .missing, .ok (some 3)⟩

/-! ## Claim C4 — `parse_table` on empty rows -/

/-- Counterexample to C4: on a table whose every row has fewer than two
cells, `parse_table` does NOT return absent — it returns the
`{categories, rows}` structure with empty `rows` (its Python source has no
empty-rows check), and the orchestrator can even surface that structure as
a present result through the Stage C unconditional fallback. -/
theorem claim_C4_counterexample :
    (parse_table emptyRowsTable).rows = [] ∧
    parse_quick_stats_from_soup emptyRowsDoc = some ⟨[], []⟩ :=
  ⟨by decide, by decide⟩

/-- C4 (amended): the Table Parser never returns absent; it produces a
`{categories, rows}` structure whose `rows` is empty exactly when the
table has no row with at least two cells. -/
theorem claim_C4_parse_table_total (t : Node) :
    (parse_table t).rows = [] ↔
      ∀ tr ∈ findAllNamed t "tr", (findCells tr).length < 2 := by
  have h1 : (parse_table t).rows = dictOf (tableRowPairs t) := rfl
  rw [h1, dictOf_eq_nil_iff, tableRowPairs, List.filterMap_eq_nil_iff]
  refine forall_congr' fun tr => imp_congr_right fun _ => ?_
  cases hc : findCells tr with
  | nil => simp [hc]
  | cons a rest =>
    cases rest with
    | nil => simp [hc]
    | cons b r2 => simp [hc]

/-- Closed instance of `claim_C4_parse_table_total` at a concrete table. -/
theorem claim_C4_witness :
    (parse_table emptyRowsTable).rows = [] ∧
    ∀ tr ∈ findAllNamed emptyRowsTable "tr", (findCells tr).length < 2 := by
  have h := claim_C4_parse_table_total emptyRowsTable
  exact ⟨by decide, h.mp (by decide)⟩

/-! ## Claim C5 — cache round trip and expiry -/

/-- C5: `cache_set(k, v, ttl)` immediately followed by `cache_get(k)`
returns `v`; and `cache_get` on a key whose stored entry has expired
returns absent and removes the entry. -/
theorem claim_C5_cache (c : Cache V) (k : String) (v : Option V) (ttl : Nat)
    (now e : Int) (w : Option V) (hentry : c k = some (e, w)) (hpast : now > e) :
    (cache_get now k (cache_set now k v ttl c)).1 = v ∧
    (cache_get now k c).1 = none ∧
    (cache_get now k c).2 k = none := by
  refine ⟨?_, ?_, ?_⟩
  · have hno : ¬ now > now + (ttl : Int) := by omega
    simp [cache_get, cache_set, hno]
  · simp [cache_get, hentry, hpast]
  · simp [cache_get, hentry, hpast]

/-- Closed instance of `claim_C5_cache` on a one-entry cache. -/
theorem claim_C5_witness :
    (cache_get 1 "k" (cache_set 1 "k" (some 5) 60
        (fun s => if s = "k" then some ((0 : Int), some 1) else none))).1 = some 5 ∧
    (cache_get 1 "k"
        (fun s => if s = "k" then some ((0 : Int), (some 1 : Option Nat)) else none)).1 =
      none ∧
    (cache_get 1 "k"
        (fun s => if s = "k" then some ((0 : Int), (some 1 : Option Nat)) else none)).2 "k" =
      none :=
  claim_C5_cache _ "k" (some 5) 60 1 0 (some 1) (by decide) (by decide)

/-! ## Claim C8 — unique row labels, last write wins -/

/-- C8: both parsers store rows in a Python dict, so row labels are unique
in every produced `NormalizedTable`, and the value stored under a label is
the one of the LAST row of the source stream carrying that label. -/
theorem claim_C8_last_write_wins (t container : Node) (r : QuickStats) (l : String)
    (h : parse_div_grid container = some r) :
    ((parse_table t).rows.map Prod.fst).Nodup ∧
    dictLookup l (parse_table t).rows = lastLookup l (tableRowPairs t) ∧
    (r.rows.map Prod.fst).Nodup ∧
    dictLookup l r.rows = lastLookup l (gridPairs container) := by
  have hr : r.rows = dictOf (gridPairs container) := by
    simp only [parse_div_grid] at h
    split at h
    · cases h
    · cases h
      rfl
  refine ⟨keys_nodup_dictOf _, dictLookup_dictOf _ _, ?_, ?_⟩
  · rw [hr]
    exact keys_nodup_dictOf _
  · rw [hr]
    exact dictLookup_dictOf _ _

/-- Closed instance of `claim_C8_last_write_wins` at concrete inputs. -/
theorem claim_C8_witness :
    ((parse_table qsTable).rows.map Prod.fst).Nodup ∧
    dictLookup "Best OPR" (parse_table qsTable).rows =
      lastLookup "Best OPR" (tableRowPairs qsTable) ∧
    ((⟨["Auto", "Teleop"],
        [("Best OPR", ["5", "7"]), ("Rank", ["top 10%", "top 5%"])]⟩ : QuickStats).rows.map
        Prod.fst).Nodup ∧
    dictLookup "Best OPR"
        (⟨["Auto", "Teleop"],
          [("Best OPR", ["5", "7"]), ("Rank", ["top 10%", "top 5%"])]⟩ : QuickStats).rows =
      lastLookup "Best OPR" (gridPairs qsGrid) :=
  claim_C8_last_write_wins qsTable qsGrid _ "Best OPR" (by decide)

/-! ## Claim C10 — row labels without values still insert rows -/

/-- The label of the row currently being collected by the grid scan always
reaches the output. -/
theorem gridScanAux_open_mem (l : List Node) :
    ∀ lab vs, lab ∈ (gridScanAux (some (lab, vs)) l).map Prod.fst := by
  induction l with
  | nil =>
    intro lab vs
    simp [gridScanAux]
  | cons c rest ih =>
    intro lab vs
    by_cases h : hasClassTok "row-label" c = true
    · simp [gridScanAux, h]
    · by_cases hv : hasClassTok "val" c = true
      · simp only [gridScanAux, h, if_neg, Bool.false_eq_true, if_false, hv, if_pos]
        exact ih lab (vs ++ [getText " " c])
      · simp only [gridScanAux, h, hv, Bool.false_eq_true, if_false]
        exact ih lab vs

/-- Every child carrying a "row-label" class token contributes a row
keyed by its text to the grid scan's output, whatever state the scan is
in when it reaches it. -/
theorem gridScanAux_rowlabel_mem (l : List Node) :
    ∀ cur c, c ∈ l → hasClassTok "row-label" c = true →
      getText " " c ∈ (gridScanAux cur l).map Prod.fst := by
  induction l with
  | nil =>
    intro cur c hc
    cases hc
  | cons c' rest ih =>
    intro cur c hc hlab
    rcases List.mem_cons.mp hc with rfl | hmem
    · simp only [gridScanAux, hlab, if_pos]
      cases cur with
      | none => exact gridScanAux_open_mem rest _ []
      | some p =>
        simp only [List.map_cons, List.mem_cons]
        exact Or.inr (gridScanAux_open_mem rest _ [])
    · by_cases h : hasClassTok "row-label" c' = true
      · simp only [gridScanAux, h, if_pos]
        cases cur with
        | none => exact ih _ c hmem hlab
        | some p =>
          simp only [List.map_cons, List.mem_cons]
          exact Or.inr (ih _ c hmem hlab)
      · by_cases hv : hasClassTok "val" c' = true
        · cases cur with
          | none =>
            simp only [gridScanAux, h, Bool.false_eq_true, if_false]
            exact ih _ c hmem hlab
          | some p =>
            obtain ⟨pl, pv⟩ := p
            simp only [gridScanAux, h, Bool.false_eq_true, if_false, hv, if_pos]
            exact ih _ c hmem hlab
        · cases cur with
          | none =>
            simp only [gridScanAux, h, Bool.false_eq_true, if_false]
            exact ih _ c hmem hlab
          | some p =>
            obtain ⟨pl, pv⟩ := p
            simp only [gridScanAux, h, hv, Bool.false_eq_true, if_false]
            exact ih _ c hmem hlab

/-- C10: every candidate child with a "row-label" class token inserts a
row into the Grid Parser's scan even when no "val" sibling follows it, and
the parser can hence return a present `NormalizedTable` whose rows have an
empty value sequence. -/
theorem claim_C10_rowlabel_always_inserts :
    (∀ (children : List Node) (c : Node), c ∈ children →
        hasClassTok "row-label" c = true →
        getText " " c ∈ (gridScan children).map Prod.fst) ∧
    parse_div_grid lonelyRowGrid = some ⟨["Best OPR"], [("Best OPR", [])]⟩ := by
  constructor
  · intro children c hc hlab
    exact gridScanAux_rowlabel_mem children none c hc hlab
  · decide

/-- Closed instance of `claim_C10_rowlabel_always_inserts` on the
single-row-label grid. -/
theorem claim_C10_witness :
    getText " " (Node.tag "div" ["row-label"] [.text "Best OPR"]) ∈
      (gridScan [Node.tag "div" ["row-label"] [.text "Best OPR"]]).map Prod.fst :=
  claim_C10_rowlabel_always_inserts.1 [Node.tag "div" ["row-label"] [.text "Best OPR"]]
    (.tag "div" ["row-label"] [.text "Best OPR"]) (by decide) (by decide)

/-! ## Branch-evaluation lemmas for `api_get` -/

theorem apiFinish_attempts (r : Response V) (c : Cache V) (a : Nat) (w : ℤ)
    (n : Int) (k : String) (ttl : Nat) : (apiFinish r c a w n k ttl).attempts = a := by
  rcases r with ⟨st, ra, body⟩
  by_cases h : st ≠ 200 <;> cases body <;> simp [apiFinish, h]

theorem apiFinish_slept (r : Response V) (c : Cache V) (a : Nat) (w : ℤ)
    (n : Int) (k : String) (ttl : Nat) : (apiFinish r c a w n k ttl).slept = w := by
  rcases r with ⟨st, ra, body⟩
  by_cases h : st ≠ 200 <;> cases body <;> simp [apiFinish, h]

theorem apiFinish_now (r : Response V) (c : Cache V) (a : Nat) (w : ℤ)
    (n : Int) (k : String) (ttl : Nat) : (apiFinish r c a w n k ttl).now = n := by
  rcases r with ⟨st, ra, body⟩
  by_cases h : st ≠ 200 <;> cases body <;> simp [apiFinish, h]

theorem apiFinish_result_ok (r : Response V) (c : Cache V) (a : Nat) (w : ℤ)
    (n : Int) (k : String) (ttl : Nat) :
    ∃ p, (apiFinish r c a w n k ttl).result = .ok p := by
  rcases r with ⟨st, ra, body⟩
  by_cases h : st ≠ 200 <;> cases body <;> simp [apiFinish, h]

/-- Shape analysis of a returned `apiFinish` pair: the two sides are never
both populated; a fully successful pair pins down the body and the cache
write; a doubly-absent pair can only come from a 200 whose body decoded to
Python `None`. -/
theorem apiFinish_ok_pair (r : Response V) (c : Cache V) (a : Nat) (w : ℤ)
    (n : Int) (k : String) (ttl : Nat) (p : Option V × Option ApiError)
    (h : (apiFinish r c a w n k ttl).result = .ok p) :
    (¬(p.1.isSome = true ∧ p.2.isSome = true)) ∧
    (∀ v, p = (some v, none) →
        (apiFinish r c a w n k ttl).cache k = some (n + (ttl : Int), some v)) ∧
    (p.1 = none → p.2 = none → r.body = Except.ok none) ∧
    (∀ o, r.body = Except.ok o → ¬(r.status ≠ 200) → p = (o, none)) := by
  rcases r with ⟨st, ra, body⟩
  by_cases hst : st ≠ 200
  · simp only [apiFinish, if_pos hst] at h
    cases h
    refine ⟨by simp, by simp, by simp, ?_⟩
    intro o ho hns
    exact absurd hst hns
  · cases body with
    | error e =>
      simp only [apiFinish, if_neg hst] at h
      cases h
      refine ⟨by simp, ?_, ?_, ?_⟩
      · intro v hv
        simp at hv
      · intro h1 h2
        simp at h2
      · intro o ho hns
        cases ho
    | ok data =>
      simp only [apiFinish, if_neg hst] at h
      cases h
      refine ⟨by simp, ?_, ?_, ?_⟩
      · rintro v hv
        have hd : data = some v := congrArg Prod.fst hv
        cases hd
        simp [apiFinish, hst, cache_set]
      · intro h1 _
        exact congrArg Except.ok h1
      · rintro o ho _
        cases ho
        rfl

theorem apiFinish_cache_of_error (r : Response V) (c : Cache V) (a : Nat) (w : ℤ)
    (n : Int) (k : String) (ttl : Nat) (d : Option V) (e : ApiError)
    (h : (apiFinish r c a w n k ttl).result = .ok (d, some e)) :
    (apiFinish r c a w n k ttl).cache = c := by
  rcases r with ⟨st, ra, body⟩
  by_cases hst : st ≠ 200
  · simp [apiFinish, hst]
  · cases body with
    | error msg => simp [apiFinish, hst]
    | ok data =>
      simp only [apiFinish, if_neg hst] at h
      cases h

/-- A cache probe that returned a value pins down a live entry. -/
theorem cache_get_hit (now : Int) (k : String) (c : Cache V) (w : V)
    (h : (cache_get now k c).1 = some w) :
    ∃ e, c k = some (e, some w) ∧ ¬now > e ∧ (cache_get now k c).2 = c := by
  cases hc : c k with
  | none =>
    exfalso
    simp [cache_get, hc] at h
  | some entry =>
    obtain ⟨e, value⟩ := entry
    by_cases hex : now > e
    · exfalso
      simp [cache_get, hc, hex] at h
    · refine ⟨e, ?_, hex, ?_⟩
      · have hval : value = some w := by
          simpa [cache_get, hc, hex] using h
        rw [hval]
      · simp [cache_get, hc, hex]

theorem api_get_hit (transport : Nat → GetOutcome V) (path params : String)
    (ttl : Nat) (cache : Cache V) (now : Int) (v : V)
    (hv : (cache_get now (apiKey (API_BASE ++ path) params) cache).1 = some v) :
    api_get transport path params ttl cache now =
      ⟨.ok (some v, none), (cache_get now (apiKey (API_BASE ++ path) params) cache).2,
        0, 0, now⟩ := by
  simp [api_get, hv]

theorem api_get_transport_error (transport : Nat → GetOutcome V) (path params : String)
    (ttl : Nat) (cache : Cache V) (now : Int) (e : String)
    (hp : (cache_get now (apiKey (API_BASE ++ path) params) cache).1 = none)
    (h0 : transport 0 = .error e) :
    api_get transport path params ttl cache now =
      ⟨.ok (none, some (.requestFailed e)),
        (cache_get now (apiKey (API_BASE ++ path) params) cache).2, 1, 0, now⟩ := by
  simp [api_get, hp, h0]

theorem api_get_429_neg (transport : Nat → GetOutcome V) (path params : String)
    (ttl : Nat) (cache : Cache V) (now : Int) (r : Response V)
    (hp : (cache_get now (apiKey (API_BASE ++ path) params) cache).1 = none)
    (h0 : transport 0 = .ok r) (hs : r.status = 429)
    (hw : parseWait r.retryAfter < 0) :
    api_get transport path params ttl cache now =
      ⟨.error (.sleepNegative (parseWait r.retryAfter)),
        (cache_get now (apiKey (API_BASE ++ path) params) cache).2, 1, 0, now⟩ := by
  simp [api_get, hp, h0, hs, hw]

theorem api_get_429_retry_error (transport : Nat → GetOutcome V) (path params : String)
    (ttl : Nat) (cache : Cache V) (now : Int) (r : Response V) (e : String)
    (hp : (cache_get now (apiKey (API_BASE ++ path) params) cache).1 = none)
    (h0 : transport 0 = .ok r) (hs : r.status = 429)
    (hw : ¬parseWait r.retryAfter < 0) (h1 : transport 1 = .error e) :
    api_get transport path params ttl cache now =
      ⟨.ok (none, some (.requestFailedAfterRetry e)),
        (cache_get now (apiKey (API_BASE ++ path) params) cache).2, 2,
        parseWait r.retryAfter, now + parseWait r.retryAfter⟩ := by
  simp [api_get, hp, h0, hs, hw, h1]

theorem api_get_429_retry_ok (transport : Nat → GetOutcome V) (path params : String)
    (ttl : Nat) (cache : Cache V) (now : Int) (r r2 : Response V)
    (hp : (cache_get now (apiKey (API_BASE ++ path) params) cache).1 = none)
    (h0 : transport 0 = .ok r) (hs : r.status = 429)
    (hw : ¬parseWait r.retryAfter < 0) (h1 : transport 1 = .ok r2) :
    api_get transport path params ttl cache now =
      apiFinish r2 (cache_get now (apiKey (API_BASE ++ path) params) cache).2 2
        (parseWait r.retryAfter) (now + parseWait r.retryAfter)
        (apiKey (API_BASE ++ path) params) ttl := by
  simp [api_get, hp, h0, hs, hw, h1]

theorem api_get_no429 (transport : Nat → GetOutcome V) (path params : String)
    (ttl : Nat) (cache : Cache V) (now : Int) (r : Response V)
    (hp : (cache_get now (apiKey (API_BASE ++ path) params) cache).1 = none)
    (h0 : transport 0 = .ok r) (hs : r.status ≠ 429) :
    api_get transport path params ttl cache now =
      apiFinish r (cache_get now (apiKey (API_BASE ++ path) params) cache).2 1 0 now
        (apiKey (API_BASE ++ path) params) ttl := by
  simp [api_get, hp, h0, hs]

/-! ## Fixture transports and rationals -/

/-- Value of header `Retry-After: 2.9` as parsed by `float`. -/
def ra29 : ℚ := ⟨29, 10, by decide, by decide⟩

/-- Value of header `Retry-After: -1` as parsed by `float`. -/
def raNeg1 : ℚ := ⟨-1, 1, by decide, by decide⟩

/-- Value of header `Retry-After: -2` as parsed by `float`. -/
def raNeg2 : ℚ := ⟨-2, 1, by decide, by decide⟩

/-- Always 200 with body `null`. -/
def nullT : Nat → GetOutcome Nat := constT ⟨200, .missing, .ok none⟩

/-- Always 200 with body `7`. -/
def okT : Nat → GetOutcome Nat := constT ⟨200, .missing, .ok (some 7)⟩

/-- Always 429 carrying `Retry-After: -1`. -/
def negT : Nat → GetOutcome Nat := constT ⟨429, .value raNeg1, .ok (some 1)⟩

/-- Always 429 carrying `Retry-After: -2`. -/
def negT2 : Nat → GetOutcome Nat := constT ⟨429, .value raNeg2, .ok (some 1)⟩

/-- Always 404 with a non-JSON body. -/
def notFoundT : Nat → GetOutcome Nat := constT ⟨404, .missing, .error "not json"⟩

/-- The 429-retry branch of `api_get` when the parsed wait is nonnegative:
exactly one more GET is issued and the call sleeps for the parsed wait. -/
theorem api_get_slept_of_429 (transport : Nat → GetOutcome V) (path params : String)
    (ttl : Nat) (cache : Cache V) (now : Int) (r : Response V)
    (hmiss : (cache_get now (apiKey (API_BASE ++ path) params) cache).1 = none)
    (h0 : transport 0 = .ok r) (hs : r.status = 429)
    (hw' : 0 ≤ parseWait r.retryAfter) :
    (api_get transport path params ttl cache now).attempts = 2 ∧
    (api_get transport path params ttl cache now).slept = parseWait r.retryAfter := by
  have hw : ¬parseWait r.retryAfter < 0 := by omega
  cases h1 : transport 1 with
  | error e2 =>
    rw [api_get_429_retry_error transport path params ttl cache now r e2 hmiss h0 hs hw h1]
    exact ⟨rfl, rfl⟩
  | ok r2 =>
    rw [api_get_429_retry_ok transport path params ttl cache now r r2 hmiss h0 hs hw h1]
    exact ⟨apiFinish_attempts r2 _ 2 _ _ _ ttl, apiFinish_slept r2 _ 2 _ _ _ ttl⟩

/-! ## Claim C1 — the `(data, error)` pair -/

/-- Counterexample to C1: a 200 response whose body decodes to JSON `null`
makes `api_get` return `(None, None)` — both sides absent — and a 429
response carrying `Retry-After: -1` makes the un-guarded `time.sleep(-1)`
raise `ValueError` instead of returning a pair at all. -/
theorem claim_C1_counterexample :
    (api_get nullT "/teams/1" "None" 60 cacheEmpty 0).result = .ok (none, none) ∧
    (api_get negT "/teams/1" "None" 60 cacheEmpty 0).result =
      .error (.sleepNegative (-1)) :=
  ⟨by decide, by decide⟩

/-- C1 (amended): the returned pair never has BOTH sides populated; the
function returns (no uncaught exception) whenever every first-response
parsed `Retry-After` wait is nonnegative; and the pair has EXACTLY one
side populated provided no response body decodes to JSON `null`. -/
theorem claim_C1_result_pair (transport : Nat → GetOutcome V) (path params : String)
    (ttl : Nat) (cache : Cache V) (now : Int) :
    (∀ p, (api_get transport path params ttl cache now).result = .ok p →
        ¬(p.1.isSome = true ∧ p.2.isSome = true)) ∧
    ((∀ r, transport 0 = .ok r → 0 ≤ parseWait r.retryAfter) →
        ∃ p, (api_get transport path params ttl cache now).result = .ok p) ∧
    ((∀ i r, transport i = .ok r → ∀ o, r.body = Except.ok o → o.isSome = true) →
        ∀ p, (api_get transport path params ttl cache now).result = .ok p →
          (p.1.isSome = true ↔ p.2 = none)) := by
  cases hp : (cache_get now (apiKey (API_BASE ++ path) params) cache).1 with
  | some v =>
    rw [api_get_hit transport path params ttl cache now v hp]
    refine ⟨?_, fun _ => ⟨_, rfl⟩, ?_⟩
    · rintro p hp2
      cases hp2
      simp
    · intro _ p hp2
      cases hp2
      simp
  | none =>
    cases h0 : transport 0 with
    | error e =>
      rw [api_get_transport_error transport path params ttl cache now e hp h0]
      refine ⟨?_, fun _ => ⟨_, rfl⟩, ?_⟩
      · rintro p hp2
        cases hp2
        simp
      · intro _ p hp2
        cases hp2
        simp
    | ok r =>
      by_cases hs : r.status = 429
      · by_cases hw : parseWait r.retryAfter < 0
        · rw [api_get_429_neg transport path params ttl cache now r hp h0 hs hw]
          refine ⟨?_, ?_, ?_⟩
          · rintro p hp2
            cases hp2
          · intro hnn
            exfalso
            have := hnn r rfl
            omega
          · intro _ p hp2
            cases hp2
        · cases h1 : transport 1 with
          | error e2 =>
            rw [api_get_429_retry_error transport path params ttl cache now r e2 hp h0 hs
              hw h1]
            refine ⟨?_, fun _ => ⟨_, rfl⟩, ?_⟩
            · rintro p hp2
              cases hp2
              simp
            · intro _ p hp2
              cases hp2
              simp
          | ok r2 =>
            rw [api_get_429_retry_ok transport path params ttl cache now r r2 hp h0 hs
              hw h1]
            refine ⟨?_, ?_, ?_⟩
            · intro p hp2
              exact (apiFinish_ok_pair r2 _ 2 _ _ _ ttl p hp2).1
            · intro _
              exact apiFinish_result_ok r2 _ 2 _ _ _ ttl
            · intro hnn p hp2
              have hh := apiFinish_ok_pair r2 _ 2 _ _ _ ttl p hp2
              constructor
              · intro h1s
                cases hp2s : p.2 with
                | none => rfl
                | some e =>
                  exact absurd ⟨h1s, by rw [hp2s]; rfl⟩ hh.1
              · intro h2n
                cases hp1s : p.1 with
                | some v => rfl
                | none =>
                  exfalso
                  have hbody := hh.2.2.1 hp1s h2n
                  have := hnn 1 r2 h1 none hbody
                  simp at this
      · rw [api_get_no429 transport path params ttl cache now r hp h0 hs]
        refine ⟨?_, ?_, ?_⟩
        · intro p hp2
          exact (apiFinish_ok_pair r _ 1 _ _ _ ttl p hp2).1
        · intro _
          exact apiFinish_result_ok r _ 1 _ _ _ ttl
        · intro hnn p hp2
          have hh := apiFinish_ok_pair r _ 1 _ _ _ ttl p hp2
          constructor
          · intro h1s
            cases hp2s : p.2 with
            | none => rfl
            | some e =>
              exact absurd ⟨h1s, by rw [hp2s]; rfl⟩ hh.1
          · intro h2n
            cases hp1s : p.1 with
            | some v => rfl
            | none =>
              exfalso
              have hbody := hh.2.2.1 hp1s h2n
              have := hnn 0 r h0 none hbody
              simp at this

/-- Closed instance of `claim_C1_result_pair`: on an all-nonnull transport
the fetcher returns a pair. -/
theorem claim_C1_witness :
    ∃ p, (api_get okT "/teams/1" "None" 60 cacheEmpty 0).result = .ok p :=
  (claim_C1_result_pair okT "/teams/1" "None" 60 cacheEmpty 0).2.1
    (by intro r hr; cases hr; decide)

/-! ## Claim C2 — one explicit retry on 429, none otherwise -/

/-- Counterexample to C2: on a first-GET 429 whose `Retry-After` parses to
the negative wait `-1`, NO additional call-site GET is issued — the call
raises from `time.sleep` with only the single original attempt made,
rather than blocking and retrying once. -/
theorem claim_C2_counterexample :
    (api_get negT "/teams/1" "None" 60 cacheEmpty 0).attempts = 1 ∧
    (api_get negT "/teams/1" "None" 60 cacheEmpty 0).result =
      .error (.sleepNegative (-1)) :=
  ⟨by decide, by decide⟩

/-- C2 (amended): on a cache-missing call whose first call-site GET
returns 429 with a nonnegative parsed wait, exactly one additional GET is
issued after sleeping exactly the parsed wait (5 on a missing or
unparseable header); and when the first GET returns a non-200, non-429
status, the result is that HTTP error with zero additional attempts and
no sleep. -/
theorem claim_C2_retry_counts (transport : Nat → GetOutcome V) (path params : String)
    (ttl : Nat) (cache : Cache V) (now : Int) (r : Response V)
    (hmiss : (cache_get now (apiKey (API_BASE ++ path) params) cache).1 = none)
    (h0 : transport 0 = .ok r) :
    (r.status = 429 → 0 ≤ parseWait r.retryAfter →
        (api_get transport path params ttl cache now).attempts = 2 ∧
        (api_get transport path params ttl cache now).slept = parseWait r.retryAfter) ∧
    (r.status ≠ 429 → r.status ≠ 200 →
        (api_get transport path params ttl cache now).result =
          .ok (none, some (.httpError r.status)) ∧
        (api_get transport path params ttl cache now).attempts = 1 ∧
        (api_get transport path params ttl cache now).slept = 0) := by
  constructor
  · intro hs hw'
    exact api_get_slept_of_429 transport path params ttl cache now r hmiss h0 hs hw'
  · intro hs h200
    rw [api_get_no429 transport path params ttl cache now r hmiss h0 hs]
    refine ⟨?_, apiFinish_attempts r _ 1 _ _ _ ttl, apiFinish_slept r _ 1 _ _ _ ttl⟩
    rcases r with ⟨st, ra, body⟩
    simp only at h200
    simp [apiFinish, h200]

/-- Closed instance of `claim_C2_retry_counts`: a 429 without
`Retry-After` gets exactly one retry after the default 5-second sleep,
and a direct 404 gets no retry. -/
theorem claim_C2_witness :
    ((api_get (retryT .missing) "/teams/1" "None" 60 cacheEmpty 0).attempts = 2 ∧
      (api_get (retryT .missing) "/teams/1" "None" 60 cacheEmpty 0).slept = 5) ∧
    ((api_get notFoundT "/teams/1" "None" 60 cacheEmpty 0).result =
        .ok (none, some (.httpError 404)) ∧
      (api_get notFoundT "/teams/1" "None" 60 cacheEmpty 0).attempts = 1 ∧
      (api_get notFoundT "/teams/1" "None" 60 cacheEmpty 0).slept = 0) := by
  constructor
  · have h := (claim_C2_retry_counts (retryT .missing) "/teams/1" "None" 60 cacheEmpty 0
      ⟨429, .missing, .error "rate limited"⟩ (by decide) rfl).1 rfl (by decide)
    exact ⟨h.1, h.2⟩
  · exact (claim_C2_retry_counts notFoundT "/teams/1" "None" 60 cacheEmpty 0
      ⟨404, .missing, .error "not json"⟩ (by decide) rfl).2 (by decide) (by decide)

/-! ## Claim C9 — `Retry-After` parsing truncates toward zero -/

/-- Counterexample to C9: `Retry-After: -2` parses as a decimal number and
`int(float("-2")) = -2`, but the call does not wait `-2` seconds — the
un-guarded `time.sleep(-2)` raises, the call sleeps `0` and never issues
the retry. -/
theorem claim_C9_counterexample :
    (api_get negT2 "/teams/1" "None" 60 cacheEmpty 0).slept = 0 ∧
    (api_get negT2 "/teams/1" "None" 60 cacheEmpty 0).result =
      .error (.sleepNegative (-2)) ∧
    (api_get negT2 "/teams/1" "None" 60 cacheEmpty 0).attempts = 1 :=
  ⟨by decide, by decide, by decide⟩

/-- C9 (amended): on a 429 whose header parses to the finite float `q`
with nonnegative truncation, the explicit retry sleeps exactly
`int(float(header)) = trunc(q)` seconds — the fractional part is dropped
toward zero — and a missing or unparseable header sleeps the 5-second
default. -/
theorem claim_C9_trunc_wait (transport : Nat → GetOutcome V) (path params : String)
    (ttl : Nat) (cache : Cache V) (now : Int) (r : Response V)
    (hmiss : (cache_get now (apiKey (API_BASE ++ path) params) cache).1 = none)
    (h0 : transport 0 = .ok r) (hs : r.status = 429) :
    (∀ q, r.retryAfter = .value q → 0 ≤ ratTrunc q →
        (api_get transport path params ttl cache now).slept = ratTrunc q) ∧
    (r.retryAfter = .missing ∨ r.retryAfter = .malformed →
        (api_get transport path params ttl cache now).slept = 5) := by
  constructor
  · intro q hq ht
    have hw' : 0 ≤ parseWait r.retryAfter := by rw [hq]; exact ht
    have h := api_get_slept_of_429 transport path params ttl cache now r hmiss h0 hs hw'
    rw [h.2, hq]
    rfl
  · intro hm
    have hw5 : parseWait r.retryAfter = 5 := by
      rcases hm with hm | hm <;> rw [hm] <;> rfl
    have hw' : 0 ≤ parseWait r.retryAfter := by rw [hw5]; decide
    have h := api_get_slept_of_429 transport path params ttl cache now r hmiss h0 hs hw'
    rw [h.2, hw5]

/-- Closed instance of `claim_C9_trunc_wait`: `Retry-After: 2.9` sleeps
2 seconds. -/
theorem claim_C9_witness :
    (api_get (retryT (.value ra29)) "/teams/1" "None" 60 cacheEmpty 0).slept = 2 := by
  have h := (claim_C9_trunc_wait (retryT (.value ra29)) "/teams/1" "None" 60 cacheEmpty 0
    ⟨429, .value ra29, .error "rate limited"⟩ (by decide) rfl rfl).1 ra29 rfl (by decide)
  rw [h]
  decide

/-! ## Claim C6 — caching of successes, never of errors -/

/-- A live cache entry short-circuits `api_get` with zero GETs. -/
theorem api_get_hit_of_entry (transport2 : Nat → GetOutcome V) (path params : String)
    (ttl : Nat) (c2 : Cache V) (n2 e : Int) (v : V)
    (hent : c2 (apiKey (API_BASE ++ path) params) = some (e, some v))
    (hle : ¬n2 > e) :
    (api_get transport2 path params ttl c2 n2).attempts = 0 ∧
    (api_get transport2 path params ttl c2 n2).result = .ok (some v, none) := by
  have hv : (cache_get n2 (apiKey (API_BASE ++ path) params) c2).1 = some v := by
    simp [cache_get, hent, hle]
  rw [api_get_hit transport2 path params ttl c2 n2 v hv]
  exact ⟨rfl, rfl⟩

/-- Counterexample to C6: a 200 whose body decodes to JSON `null` IS
stored in the cache, but the stored `None` is indistinguishable from a
miss, so the immediately following identical request still issues a
network GET instead of the promised zero. -/
theorem claim_C6_counterexample :
    (api_get nullT "/teams/1" "None" 60 cacheEmpty 0).cache
        (apiKey (API_BASE ++ "/teams/1") "None") = some (60, none) ∧
    (api_get nullT "/teams/1" "None" 60
        (api_get nullT "/teams/1" "None" 60 cacheEmpty 0).cache
        (api_get nullT "/teams/1" "None" 60 cacheEmpty 0).now).attempts = 1 :=
  ⟨by decide, by decide⟩

/-- C6 (amended): a call that succeeds with a NON-NULL decoded value
stores it so that an immediately following identical request — whatever
its transport would do — issues zero GETs and returns the cached value
with no error; and a call that returns an error (or raises) leaves the
cache exactly as the initial probe left it: errors are never cached. -/
theorem claim_C6_success_caches (transport : Nat → GetOutcome V) (path params : String)
    (ttl : Nat) (cache : Cache V) (now : Int) :
    (∀ v, (api_get transport path params ttl cache now).result = .ok (some v, none) →
        ∀ transport2 : Nat → GetOutcome V,
          (api_get transport2 path params ttl
              (api_get transport path params ttl cache now).cache
              (api_get transport path params ttl cache now).now).attempts = 0 ∧
          (api_get transport2 path params ttl
              (api_get transport path params ttl cache now).cache
              (api_get transport path params ttl cache now).now).result =
            .ok (some v, none)) ∧
    (∀ d e, (api_get transport path params ttl cache now).result = .ok (d, some e) →
        (api_get transport path params ttl cache now).cache =
          (cache_get now (apiKey (API_BASE ++ path) params) cache).2) ∧
    (∀ ex, (api_get transport path params ttl cache now).result = .error ex →
        (api_get transport path params ttl cache now).cache =
          (cache_get now (apiKey (API_BASE ++ path) params) cache).2) := by
  cases hp : (cache_get now (apiKey (API_BASE ++ path) params) cache).1 with
  | some w =>
    rw [api_get_hit transport path params ttl cache now w hp]
    refine ⟨?_, ?_, ?_⟩
    · intro v hres transport2
      have hv : w = v := by
        have := congrArg (fun z => match z with
          | Except.ok (p : Option V × Option ApiError) => p.1
          | Except.error _ => none) hres
        simpa using this
      cases hv
      obtain ⟨e, hent, hex, hsnd⟩ := cache_get_hit now _ cache w hp
      rw [hsnd]
      exact api_get_hit_of_entry transport2 path params ttl cache now e w hent hex
    · intro d e hres
      exfalso
      have := congrArg (fun z => match z with
        | Except.ok (p : Option V × Option ApiError) => p.2.isSome
        | Except.error _ => false) hres
      simp at this
    · intro ex hres
      cases hres
  | none =>
    cases h0 : transport 0 with
    | error e =>
      rw [api_get_transport_error transport path params ttl cache now e hp h0]
      refine ⟨?_, ?_, ?_⟩
      · intro v hres
        exfalso
        have := congrArg (fun z => match z with
          | Except.ok (p : Option V × Option ApiError) => p.1.isSome
          | Except.error _ => true) hres
        simp at this
      · intro d e2 hres
        rfl
      · intro ex hres
        rfl
    | ok r =>
      by_cases hs : r.status = 429
      · by_cases hw : parseWait r.retryAfter < 0
        · rw [api_get_429_neg transport path params ttl cache now r hp h0 hs hw]
          refine ⟨?_, ?_, ?_⟩
          · intro v hres
            cases hres
          · intro d e hres
            cases hres
          · intro ex hres
            rfl
        · cases h1 : transport 1 with
          | error e2 =>
            rw [api_get_429_retry_error transport path params ttl cache now r e2 hp h0 hs
              hw h1]
            refine ⟨?_, ?_, ?_⟩
            · intro v hres
              exfalso
              have := congrArg (fun z => match z with
                | Except.ok (p : Option V × Option ApiError) => p.1.isSome
                | Except.error _ => true) hres
              simp at this
            · intro d e3 hres
              rfl
            · intro ex hres
              cases hres
          | ok r2 =>
            rw [api_get_429_retry_ok transport path params ttl cache now r r2 hp h0 hs
              hw h1]
            refine ⟨?_, ?_, ?_⟩
            · intro v hres transport2
              have hcache := (apiFinish_ok_pair r2 _ 2 _ _ _ ttl _ hres).2.1 v rfl
              have hnow := apiFinish_now r2
                ((cache_get now (apiKey (API_BASE ++ path) params) cache).2) 2
                (parseWait r.retryAfter) (now + parseWait r.retryAfter)
                (apiKey (API_BASE ++ path) params) ttl
              rw [hnow]
              refine api_get_hit_of_entry transport2 path params ttl _
                (now + parseWait r.retryAfter)
                (now + parseWait r.retryAfter + (ttl : Int)) v hcache ?_
              omega
            · intro d e hres
              exact apiFinish_cache_of_error r2 _ 2 _ _ _ ttl d e hres
            · intro ex hres
              obtain ⟨p, hok⟩ := apiFinish_result_ok r2
                ((cache_get now (apiKey (API_BASE ++ path) params) cache).2) 2
                (parseWait r.retryAfter) (now + parseWait r.retryAfter)
                (apiKey (API_BASE ++ path) params) ttl
              rw [hok] at hres
              cases hres
      · rw [api_get_no429 transport path params ttl cache now r hp h0 hs]
        refine ⟨?_, ?_, ?_⟩
        · intro v hres transport2
          have hcache := (apiFinish_ok_pair r _ 1 _ _ _ ttl _ hres).2.1 v rfl
          have hnow := apiFinish_now r
            ((cache_get now (apiKey (API_BASE ++ path) params) cache).2) 1 0 now
            (apiKey (API_BASE ++ path) params) ttl
          rw [hnow]
          refine api_get_hit_of_entry transport2 path params ttl _ now
            (now + (ttl : Int)) v hcache ?_
          omega
        · intro d e hres
          exact apiFinish_cache_of_error r _ 1 _ _ _ ttl d e hres
        · intro ex hres
          obtain ⟨p, hok⟩ := apiFinish_result_ok r
            ((cache_get now (apiKey (API_BASE ++ path) params) cache).2) 1 0 now
            (apiKey (API_BASE ++ path) params) ttl
          rw [hok] at hres
          cases hres

/-- Closed instance of `claim_C6_success_caches`: after a successful
non-null 200, the identical follow-up request does zero GETs even against
a transport that would fail. -/
theorem claim_C6_witness :
    (api_get notFoundT "/teams/1" "None" 60
        (api_get okT "/teams/1" "None" 60 cacheEmpty 0).cache
        (api_get okT "/teams/1" "None" 60 cacheEmpty 0).now).attempts = 0 ∧
    (api_get notFoundT "/teams/1" "None" 60
        (api_get okT "/teams/1" "None" 60 cacheEmpty 0).cache
        (api_get okT "/teams/1" "None" 60 cacheEmpty 0).now).result =
      .ok (some 7, none) :=
  (claim_C6_success_caches okT "/teams/1" "None" 60 cacheEmpty 0).1 7 (by decide)
    notFoundT

/-! ## Claim C3 — Stage A precedence -/

/-- C3: once a "quick stats" heading is found, a non-empty Grid-Parser
result on the next "table"-class `div` is returned immediately — with no
keyword requirement, taking precedence over every Stage B/C candidate —
while the anchored classic-table fallback is returned only when its row
labels match a keyword; otherwise the overall result is the Stage B/C
continuation. -/
theorem claim_C3_stageA_precedence (soup : Node) (i : Nat)
    (hh : (descendants soup).findIdx? isQuickStatsHeading = some i) :
    (∀ r, stageAgrid ((descendants soup).drop (i + 1)) = some r →
        parse_quick_stats_from_soup soup = some r) ∧
    (stageAgrid ((descendants soup).drop (i + 1)) = none →
      ∀ t, ((descendants soup).drop (i + 1)).find? (fun n => nodeName n = "table") =
          some t →
        (rowsHaveKeyword (parse_table t).rows = true →
            parse_quick_stats_from_soup soup = some (parse_table t)) ∧
        (rowsHaveKeyword (parse_table t).rows = false →
            parse_quick_stats_from_soup soup = stageBC soup)) := by
  constructor
  · intro r hg
    simp [parse_quick_stats_from_soup, hh, hg]
  · intro hg t ht
    constructor
    · intro hk
      simp [parse_quick_stats_from_soup, hh, hg, ht, hk]
    · intro hk
      simp [parse_quick_stats_from_soup, hh, hg, ht, hk]

/-- Closed instance of `claim_C3_stageA_precedence` on a document holding
a heading-anchored grid AND a later keyword-bearing classic table: the
anchored grid wins. -/
theorem claim_C3_witness :
    parse_quick_stats_from_soup qsDoc =
      some ⟨["Auto", "Teleop"],
        [("Best OPR", ["5", "7"]), ("Rank", ["top 10%", "top 5%"])]⟩ :=
  (claim_C3_stageA_precedence qsDoc 0 (by decide)).1
    ⟨["Auto", "Teleop"], [("Best OPR", ["5", "7"]), ("Rank", ["top 10%", "top 5%"])]⟩
    (by decide)

/-! ## Claim C7 — the Field Projector -/

theorem foldl_append_if (l : List α) (q : α → Prop) [DecidablePred q] (g : α → β)
    (acc : List β) :
    l.foldl (fun a x => if q x then a ++ [g x] else a) acc =
      acc ++ l.filterMap (fun x => if q x then some (g x) else none) := by
  induction l generalizing acc with
  | nil => simp
  | cons x xs ih =>
    by_cases h : q x <;> simp [h, ih]

/-- The imperative per-category loop, re-expressed as a `filterMap`:
one field per category position whose `field_lines` is non-empty. -/
theorem perCategoryFields_eq (cats : List String) (rows : List (String × List String)) :
    perCategoryFields cats rows = (cats.enum).filterMap fun ci =>
      if fieldLines rows (find_row rows ["best", "opr"])
          (find_row rows ["rank", "percentile"]) ci.1 ≠ [] then
        some ⟨ci.2, pyJoin "\n" (fieldLines rows (find_row rows ["best", "opr"])
          (find_row rows ["rank", "percentile"]) ci.1), true⟩
      else none :=
  foldl_append_if (cats.enum) _ _ []

/-- Counterexample to C7: with categories `["Auto"]` and a best row whose
position-0 value exists but is the empty string, the claim requires a
per-category record for `"Auto"`; the code's truthiness test on the value
suppresses the field, `added_any` stays false, and the per-row fallback is
emitted instead. -/
theorem claim_C7_counterexample :
    projectFields ["Auto"] [("Best OPR", [""])] = [⟨"Best OPR", "Auto: ", false⟩] := by
  decide

/-- C7 (amended): for non-empty categories, the projector emits one
record per category position whose `field_lines` is non-empty, and
`field_lines` is non-empty exactly when the best row or the rank row was
found and holds a NON-EMPTY value at that position; when no record is
emitted this way the projector falls back to one record per original row
label, positionally against the categories. -/
theorem claim_C7_projection (cats : List String) (rows : List (String × List String))
    (hne : cats ≠ []) :
    (perCategoryFields cats rows = (cats.enum).filterMap fun ci =>
        if fieldLines rows (find_row rows ["best", "opr"])
            (find_row rows ["rank", "percentile"]) ci.1 ≠ [] then
          some ⟨ci.2, pyJoin "\n" (fieldLines rows (find_row rows ["best", "opr"])
            (find_row rows ["rank", "percentile"]) ci.1), true⟩
        else none) ∧
    (∀ i, fieldLines rows (find_row rows ["best", "opr"])
        (find_row rows ["rank", "percentile"]) i ≠ [] ↔
      ((labelTruthy (find_row rows ["best", "opr"]) = true ∧
          valAt rows (find_row rows ["best", "opr"]) i ≠ "") ∨
        (labelTruthy (find_row rows ["rank", "percentile"]) = true ∧
          valAt rows (find_row rows ["rank", "percentile"]) i ≠ ""))) ∧
    (perCategoryFields cats rows ≠ [] →
        projectFields cats rows = perCategoryFields cats rows) ∧
    (perCategoryFields cats rows = [] →
        projectFields cats rows = fallbackFields cats rows) := by
  refine ⟨perCategoryFields_eq cats rows, ?_, ?_, ?_⟩
  · intro i
    by_cases h1 : labelTruthy (find_row rows ["best", "opr"]) = true ∧
        valAt rows (find_row rows ["best", "opr"]) i ≠ ""
    · simp [fieldLines, h1]
    · by_cases h2 : labelTruthy (find_row rows ["rank", "percentile"]) = true ∧
          valAt rows (find_row rows ["rank", "percentile"]) i ≠ ""
      · simp [fieldLines, h1, h2]
      · simp [fieldLines, h1, h2]
  · intro hper
    simp [projectFields, hne, hper]
  · intro hper
    simp [projectFields, hne, hper]

/-- Closed instance of `claim_C7_projection`: on the worked Quick-Stats
table the per-category fields are emitted (no fallback). -/
theorem claim_C7_witness :
    projectFields ["Auto", "Teleop"]
        [("Best OPR", ["5", "7"]), ("Rank", ["top 10%", "top 5%"])] =
      perCategoryFields ["Auto", "Teleop"]
        [("Best OPR", ["5", "7"]), ("Rank", ["top 10%", "top 5%"])] :=
  (claim_C7_projection ["Auto", "Teleop"]
    [("Best OPR", ["5", "7"]), ("Rank", ["top 10%", "top 5%"])] (by decide)).2.2.1
    (by decide)

end FtcBot
